import Mathlib

/-!
Verification of the quantitative core of the stock-ai-agent repository:
the rule-based decision engine (`app/agents/decision_agent.py`), the
technical-indicator engine (`app/agents/indicator_agent.py`) and the
sentiment aggregator (`app/agents/sentiment_agent.py`).

Numbers are modelled as rationals (`ℚ`); a pandas `NaN` cell is modelled
as `none` in an `Option ℚ`.  Python dictionaries with possibly-missing
keys are modelled as records of `Option` fields (outer `Option` = key
presence, inner `Option` = a `None` value stored under the key).
-/

namespace StockAgent

/-- Python's `round(x, 2)` (banker's rounding at 2 decimal places),
on the rational model of the float values that actually arise. -/
def pyRound2 (q : ℚ) : ℚ :=
  let x : ℚ := 100 * q
  let f : ℤ := ⌊x⌋
  let r : ℚ := x - f
  let n : ℤ :=
    if r < 1/2 then f
    else if r > 1/2 then f + 1
    else if f % 2 = 0 then f else f + 1
  (n : ℚ) / 100

/-- Trading action returned by the decision engine. -/
inductive Action
  | BUY
  | SELL
  | HOLD
deriving DecidableEq, Repr

/-- The `indicators` argument of `decide`: a dict that may or may not
contain each of the keys `rsi`, `ma20`, `macd`; a present key holds an
`Optional[float]` value (so `some none` is a key present with value
`None`).  Keys other than the three required ones are never read by
`decide`, so they are not modelled. -/
structure Indicators where
  rsi : Option (Option ℚ)
  ma20 : Option (Option ℚ)
  macd : Option (Option ℚ)
deriving DecidableEq, Repr

/-- The `sentiment` argument of `decide`: a dict documented to carry
`overall_score` and `overall_sentiment`.  The `overall_score` key may be
absent (the code tests `"overall_score" in sentiment`); the label is
read only for the reason text. -/
structure Sentiment where
  overall_score : Option ℚ
  overall_sentiment : String
deriving DecidableEq, Repr

/-- The pieces out of which `decide` concatenates its `reason` string,
each carrying the numeric values interpolated into the f-string.  The
final Python string is a fixed injective rendering of this list. -/
inductive ReasonPart
  | rsiOversold (rsi : ℚ)
  | macdPositiveMomentum
  | rsiOverbought (rsi : ℚ)
  | macdNegativeMomentum
  | rsiNeutral (rsi : ℚ)
  | slightBullishBias
  | slightBearishBias
  | macdUnavailableInsufficient
  | macdUnavailableNeed26
  | supportedBySentiment (label : String) (score : ℚ)
  | negativeNewsCaution (score : ℚ)
  | positiveNewsCaution (score : ℚ)
  | upgradedToBuy (score : ℚ)
  | upgradedToSell (score : ℚ)
deriving DecidableEq, Repr

/-- The decision returned by `decide`. -/
structure Decision where
  action : Action
  confidence : ℚ
  reason : List ReasonPart
deriving DecidableEq, Repr

/-- How `decide` can fail: `missingIndicator` models
`raise ValueError("Missing required indicators...")`; `typeError` models
the `TypeError` Python raises when `rsi` is `None` and is compared
against a number. -/
inductive DecideError
  | missingIndicator
  | typeError
deriving DecidableEq, Repr

/-- The base phase of `decide` (`app/agents/decision_agent.py`):
the RSI if/elif/else ladder with the in-branch MACD adjustment,
producing the pre-sentiment action, confidence, and reason. -/
def baseDecision (rsi : ℚ) (macd : Option ℚ) : Action × ℚ × List ReasonPart :=
  if rsi < 30 then
    match macd with
    | some m =>
      if m > 0 then (.BUY, (9/10 : ℚ), [.rsiOversold rsi, .macdPositiveMomentum])
      else (.BUY, (4/5 : ℚ), [.rsiOversold rsi])
    | none => (.BUY, (4/5 : ℚ), [.rsiOversold rsi, .macdUnavailableInsufficient])
  else if rsi > 70 then
    match macd with
    | some m =>
      if m < 0 then (.SELL, (9/10 : ℚ), [.rsiOverbought rsi, .macdNegativeMomentum])
      else (.SELL, (4/5 : ℚ), [.rsiOverbought rsi])
    | none => (.SELL, (4/5 : ℚ), [.rsiOverbought rsi, .macdUnavailableInsufficient])
  else
    match macd with
    | some m =>
      if m > (1/100 : ℚ) then (.HOLD, (3/5 : ℚ), [.rsiNeutral rsi, .slightBullishBias])
      else if m < (-(1/100) : ℚ) then (.HOLD, (3/5 : ℚ), [.rsiNeutral rsi, .slightBearishBias])
      else (.HOLD, (1/2 : ℚ), [.rsiNeutral rsi])
    | none => (.HOLD, (1/2 : ℚ), [.rsiNeutral rsi, .macdUnavailableNeed26])

/-- The sentiment phase of `decide`: the if/elif ladder run when a
sentiment dict with an `overall_score` key was supplied. -/
def fuseSentiment (a : Action) (c : ℚ) (r : List ReasonPart) (score : ℚ) (label : String) :
    Action × ℚ × List ReasonPart :=
  if a = .BUY ∧ score > (1/5 : ℚ) then
    (a, min (19/20 : ℚ) (c + (1/10 : ℚ)), r ++ [.supportedBySentiment label score])
  else if a = .SELL ∧ score < (-(1/5) : ℚ) then
    (a, min (19/20 : ℚ) (c + (1/10 : ℚ)), r ++ [.supportedBySentiment label score])
  else if a = .BUY ∧ score < (-(2/5) : ℚ) then
    (.HOLD, max (2/5 : ℚ) (c - (3/10 : ℚ)), r ++ [.negativeNewsCaution score])
  else if a = .SELL ∧ score > (2/5 : ℚ) then
    (.HOLD, max (2/5 : ℚ) (c - (3/10 : ℚ)), r ++ [.positiveNewsCaution score])
  else if a = .HOLD then
    if score > (1/2 : ℚ) then (.BUY, (3/5 : ℚ), r ++ [.upgradedToBuy score])
    else if score < (-(1/2) : ℚ) then (.SELL, (3/5 : ℚ), r ++ [.upgradedToSell score])
    else (a, c, r)
  else (a, c, r)

/-- Shallow embedding of `decide(indicators, sentiment=None)` from
`app/agents/decision_agent.py`: key validation, the base RSI phase,
the sentiment-fusion phase, and the final 2-decimal rounding.  The
numeric logic is verbatim; the `reason` string is modelled as the list
of appended parts. -/
def decide (indicators : Indicators) (sentiment : Option Sentiment := none) :
    Except DecideError Decision :=
  match indicators.rsi, indicators.ma20, indicators.macd with
  | some rsiV, some _, some macd =>
    match rsiV with
    | none => .error .typeError
    | some rsi =>
      let base := baseDecision rsi macd
      let fused : Action × ℚ × List ReasonPart :=
        match sentiment with
        | some s =>
          match s.overall_score with
          | some score => fuseSentiment base.1 base.2.1 base.2.2 score s.overall_sentiment
          | none => base
        | none => base
      .ok ⟨fused.1, pyRound2 fused.2.1, fused.2.2⟩
  | _, _, _ => .error .missingIndicator

/-- The RSI rule table with the MACD adjustment, stated the way the
claim words it (independently of the branch structure of the code). -/
def claimBase (r : ℚ) (mc : Option ℚ) : Action × ℚ :=
  if r < 30 then
    (.BUY, match mc with | some m => if m > 0 then (9/10 : ℚ) else (4/5 : ℚ) | none => (4/5 : ℚ))
  else if r > 70 then
    (.SELL, match mc with | some m => if m < 0 then (9/10 : ℚ) else (4/5 : ℚ) | none => (4/5 : ℚ))
  else
    (.HOLD, match mc with
      | some m => if m > (1/100 : ℚ) ∨ m < (-(1/100) : ℚ) then (3/5 : ℚ) else (1/2 : ℚ)
      | none => (1/2 : ℚ))

/-- The sentiment-fusion rule table, stated the way the claim words it:
four rules in priority order, first match wins. -/
def claimFusion (a : Action) (c : ℚ) (score : ℚ) : Action × ℚ :=
  if (a = .BUY ∧ score > (1/5 : ℚ)) ∨ (a = .SELL ∧ score < (-(1/5) : ℚ)) then
    (a, min (19/20 : ℚ) (c + (1/10 : ℚ)))
  else if (a = .BUY ∧ score < (-(2/5) : ℚ)) ∨ (a = .SELL ∧ score > (2/5 : ℚ)) then
    (.HOLD, max (2/5 : ℚ) (c - (3/10 : ℚ)))
  else if a = .HOLD ∧ score > (1/2 : ℚ) then (.BUY, (3/5 : ℚ))
  else if a = .HOLD ∧ score < (-(1/2) : ℚ) then (.SELL, (3/5 : ℚ))
  else (a, c)

lemma baseDecision_matches (r : ℚ) (mc : Option ℚ) :
    ((baseDecision r mc).1, (baseDecision r mc).2.1) = claimBase r mc := by
  cases mc <;> simp only [baseDecision, claimBase] <;> split_ifs <;>
    (try casesm* _ ∨ _) <;> (try simp) <;> tauto

lemma baseDecision_conf (r : ℚ) (mc : Option ℚ) :
    (baseDecision r mc).2.1 = 1/2 ∨ (baseDecision r mc).2.1 = 3/5 ∨
      (baseDecision r mc).2.1 = 4/5 ∨ (baseDecision r mc).2.1 = 9/10 := by
  cases mc <;> simp only [baseDecision] <;> split_ifs <;> simp

lemma fuseSentiment_matches (a : Action) (c : ℚ) (rs : List ReasonPart) (sc : ℚ) (lb : String) :
    ((fuseSentiment a c rs sc lb).1, (fuseSentiment a c rs sc lb).2.1) = claimFusion a c sc := by
  cases a <;> simp [fuseSentiment, claimFusion] <;> split_ifs <;> simp

lemma fuseSentiment_conf (a : Action) (c : ℚ) (rs : List ReasonPart) (sc : ℚ) (lb : String) :
    (fuseSentiment a c rs sc lb).2.1 = c ∨
    (fuseSentiment a c rs sc lb).2.1 = min (19/20 : ℚ) (c + 1/10) ∨
    (fuseSentiment a c rs sc lb).2.1 = max (2/5 : ℚ) (c - 3/10) ∨
    (fuseSentiment a c rs sc lb).2.1 = 3/5 := by
  simp only [fuseSentiment]; split_ifs <;> simp

lemma fused_conf_cases (r : ℚ) (mc : Option ℚ) (rs : List ReasonPart) (sc : ℚ) (lb : String) :
    (fuseSentiment (baseDecision r mc).1 (baseDecision r mc).2.1 rs sc lb).2.1 = 2/5 ∨
    (fuseSentiment (baseDecision r mc).1 (baseDecision r mc).2.1 rs sc lb).2.1 = 1/2 ∨
    (fuseSentiment (baseDecision r mc).1 (baseDecision r mc).2.1 rs sc lb).2.1 = 3/5 ∨
    (fuseSentiment (baseDecision r mc).1 (baseDecision r mc).2.1 rs sc lb).2.1 = 7/10 ∨
    (fuseSentiment (baseDecision r mc).1 (baseDecision r mc).2.1 rs sc lb).2.1 = 4/5 ∨
    (fuseSentiment (baseDecision r mc).1 (baseDecision r mc).2.1 rs sc lb).2.1 = 9/10 ∨
    (fuseSentiment (baseDecision r mc).1 (baseDecision r mc).2.1 rs sc lb).2.1 = 19/20 := by
  rcases baseDecision_conf r mc with h | h | h | h <;>
    rcases fuseSentiment_conf (baseDecision r mc).1 (baseDecision r mc).2.1 rs sc lb
      with h2 | h2 | h2 | h2 <;>
    rw [h2] <;> (try rw [h]) <;> norm_num [min_def, max_def]

lemma pyRound2_p4 : pyRound2 (2/5 : ℚ) = (2/5 : ℚ) := by norm_num [pyRound2]
lemma pyRound2_p5 : pyRound2 (1/2 : ℚ) = (1/2 : ℚ) := by norm_num [pyRound2]
lemma pyRound2_p6 : pyRound2 (3/5 : ℚ) = (3/5 : ℚ) := by norm_num [pyRound2]
lemma pyRound2_p8 : pyRound2 (4/5 : ℚ) = (4/5 : ℚ) := by norm_num [pyRound2]
lemma pyRound2_p9 : pyRound2 (9/10 : ℚ) = (9/10 : ℚ) := by norm_num [pyRound2]
lemma pyRound2_p95 : pyRound2 (19/20 : ℚ) = (19/20 : ℚ) := by norm_num [pyRound2]

lemma decide_base_eq (r : ℚ) (m20 mc : Option ℚ) :
    (decide ⟨some (some r), some m20, some mc⟩ none).map
      (fun d => (d.action, d.confidence)) = .ok (claimBase r mc) := by
  have hb := baseDecision_matches r mc
  have hfix : pyRound2 (baseDecision r mc).2.1 = (baseDecision r mc).2.1 := by
    rcases baseDecision_conf r mc with h | h | h | h <;> rw [h] <;> norm_num [pyRound2]
  have h1 : (baseDecision r mc).1 = (claimBase r mc).1 := by rw [← hb]
  have h2 : (baseDecision r mc).2.1 = (claimBase r mc).2 := by rw [← hb]
  simp only [decide, Except.map, hfix]
  simp [h1, h2]

lemma decide_fusion_eq (r : ℚ) (m20 mc : Option ℚ) (lb : String) (sc : ℚ) :
    (decide ⟨some (some r), some m20, some mc⟩ (some ⟨some sc, lb⟩)).map
      (fun d => (d.action, d.confidence))
    = .ok (claimFusion (claimBase r mc).1 (claimBase r mc).2 sc) := by
  have hb := baseDecision_matches r mc
  have hf := fuseSentiment_matches (baseDecision r mc).1 (baseDecision r mc).2.1
    (baseDecision r mc).2.2 sc lb
  have hfix : pyRound2 ((fuseSentiment (baseDecision r mc).1 (baseDecision r mc).2.1
      (baseDecision r mc).2.2 sc lb).2.1)
        = (fuseSentiment (baseDecision r mc).1 (baseDecision r mc).2.1
      (baseDecision r mc).2.2 sc lb).2.1 := by
    rcases fused_conf_cases r mc (baseDecision r mc).2.2 sc lb with h | h | h | h | h | h | h <;>
      rw [h] <;> norm_num [pyRound2]
  have h1 : (baseDecision r mc).1 = (claimBase r mc).1 := by rw [← hb]
  have h2 : (baseDecision r mc).2.1 = (claimBase r mc).2 := by rw [← hb]
  simp only [decide, Except.map, hfix]
  rw [← h1, ← h2]
  simp [hf]

/-- C1: with all three indicator keys present, numeric `rsi`, and no
sentiment, `decide` returns exactly the action and confidence of the
claim's RSI rule table with the per-branch MACD adjustment; in
particular rsi 25 / macd 0.5 gives BUY at 0.9, and rsi exactly 70 is
HOLD. -/
theorem decide_base_rule_table :
    (∀ (r : ℚ) (m20 mc : Option ℚ),
      (decide ⟨some (some r), some m20, some mc⟩ none).map
          (fun d => (d.action, d.confidence)) = .ok (claimBase r mc))
    ∧ (decide ⟨some (some 25), some (some 100), some (some (1/2 : ℚ))⟩ none).map
          (fun d => (d.action, d.confidence)) = .ok (.BUY, (9/10 : ℚ))
    ∧ (decide ⟨some (some 70), some (some 100), some (some 0)⟩ none).map
          (fun d => (d.action, d.confidence)) = .ok (.HOLD, (1/2 : ℚ)) := by
  refine ⟨decide_base_eq, ?_, ?_⟩
  · rw [decide_base_eq]
    norm_num [claimBase]
  · rw [decide_base_eq]
    norm_num [claimBase]

/-- C2: when a sentiment dict containing `overall_score` is supplied,
`decide` applies the four fusion rules of the claim in priority order,
first match winning, to the base action/confidence; indicators
{rsi 25, ma20 100, macd 0.5} with overall_score -0.5 give HOLD at 0.6;
and every confidence `decide` ever returns lies in [0,1] and is an
integer number of hundredths (the 2-decimal rounding). -/
theorem decide_sentiment_fusion_priority :
    (∀ (r : ℚ) (m20 mc : Option ℚ) (lb : String) (sc : ℚ),
      (decide ⟨some (some r), some m20, some mc⟩ (some ⟨some sc, lb⟩)).map
          (fun d => (d.action, d.confidence))
        = .ok (claimFusion (claimBase r mc).1 (claimBase r mc).2 sc))
    ∧ ((decide ⟨some (some 25), some (some 100), some (some (1/2 : ℚ))⟩
          (some ⟨some (-(1/2) : ℚ), "NEGATIVE"⟩)).map (fun d => (d.action, d.confidence))
        = .ok (.HOLD, (3/5 : ℚ)))
    ∧ (∀ (ind : Indicators) (s : Option Sentiment) (d : Decision), decide ind s = .ok d →
        0 ≤ d.confidence ∧ d.confidence ≤ 1 ∧ ∃ k : ℤ, d.confidence = (k : ℚ) / 100) := by
  refine ⟨fun r m20 mc lb sc => decide_fusion_eq r m20 mc lb sc, ?_, ?_⟩
  · rw [decide_fusion_eq]
    simp [claimBase, claimFusion]
    norm_num [max_def]
    simp
  · rintro ⟨r?, m?, mc?⟩ s d h
    cases r? with
    | none => simp [decide] at h
    | some rv =>
      cases m? with
      | none => simp [decide] at h
      | some mv =>
        cases mc? with
        | none => simp [decide] at h
        | some mcv =>
          cases rv with
          | none => simp [decide] at h
          | some r =>
            have hconf : ∃ v : ℚ, d.confidence = pyRound2 v ∧
                (v = 2/5 ∨ v = 1/2 ∨ v = 3/5 ∨ v = 7/10 ∨ v = 4/5 ∨ v = 9/10 ∨ v = 19/20) := by
              cases s with
              | none =>
                simp only [decide, Except.ok.injEq] at h
                refine ⟨(baseDecision r mcv).2.1, by rw [← h], ?_⟩
                rcases baseDecision_conf r mcv with h' | h' | h' | h' <;> tauto
              | some sv =>
                rcases sv with ⟨score?, lb⟩
                cases score? with
                | none =>
                  simp only [decide, Except.ok.injEq] at h
                  refine ⟨(baseDecision r mcv).2.1, by rw [← h], ?_⟩
                  rcases baseDecision_conf r mcv with h' | h' | h' | h' <;> tauto
                | some sc =>
                  simp only [decide, Except.ok.injEq] at h
                  refine ⟨(fuseSentiment (baseDecision r mcv).1 (baseDecision r mcv).2.1
                    (baseDecision r mcv).2.2 sc lb).2.1, by rw [← h], ?_⟩
                  exact fused_conf_cases r mcv (baseDecision r mcv).2.2 sc lb
            obtain ⟨v, hv, hcases⟩ := hconf
            rw [hv]
            rcases hcases with h' | h' | h' | h' | h' | h' | h' <;> rw [h'] <;>
              refine ⟨by norm_num [pyRound2], by norm_num [pyRound2], ?_⟩
            exacts [⟨40, by norm_num [pyRound2]⟩, ⟨50, by norm_num [pyRound2]⟩,
              ⟨60, by norm_num [pyRound2]⟩, ⟨70, by norm_num [pyRound2]⟩,
              ⟨80, by norm_num [pyRound2]⟩, ⟨90, by norm_num [pyRound2]⟩,
              ⟨95, by norm_num [pyRound2]⟩]

theorem decide_sentiment_fusion_priority_witness :
    0 ≤ pyRound2 (1/2 : ℚ) ∧ pyRound2 (1/2 : ℚ) ≤ 1
    ∧ ∃ k : ℤ, pyRound2 (1/2 : ℚ) = (k : ℚ) / 100 := by
  have h : decide ⟨some (some 50), some (some 100), some (some 0)⟩ none
      = .ok ⟨.HOLD, pyRound2 (1/2 : ℚ), [.rsiNeutral 50]⟩ := by
    norm_num [decide, baseDecision]
  exact decide_sentiment_fusion_priority.2.2 _ none _ h

/-- C7: `decide` fails with the missing-indicator error iff one of the
three required keys is absent from the mapping; a `macd` key that is
present with the `None` value does not cause a failure. -/
theorem decide_missing_indicator_iff :
    (∀ (ind : Indicators) (s : Option Sentiment),
      decide ind s = .error .missingIndicator ↔
        (ind.rsi = none ∨ ind.ma20 = none ∨ ind.macd = none))
    ∧ (∀ (r : ℚ) (m20 : Option ℚ) (s : Option Sentiment),
        ∃ d, decide ⟨some (some r), some m20, some none⟩ s = .ok d) := by
  constructor
  · rintro ⟨r?, m?, mc?⟩ s
    cases r? with
    | none => simp [decide]
    | some rv =>
      cases m? with
      | none => simp [decide]
      | some mv =>
        cases mc? with
        | none => simp [decide]
        | some mcv =>
          cases rv with
          | none => simp [decide]
          | some r => simp only [decide]; simp
  · intro r m20 s
    cases s with
    | none => exact ⟨_, rfl⟩
    | some sv =>
      rcases sv with ⟨score?, label⟩
      cases score? <;> exact ⟨_, rfl⟩

/-- C10: the value stored under the `ma20` key never influences the
output of `decide`: two indicator mappings that differ only in that
value produce identical decisions (action, confidence and reason). -/
theorem decide_ignores_ma20 :
    ∀ (r mc : Option (Option ℚ)) (v1 v2 : Option ℚ) (s : Option Sentiment),
      decide ⟨r, some v1, mc⟩ s = decide ⟨r, some v2, mc⟩ s := by
  intro r mc v1 v2 s
  cases r <;> cases mc <;> rfl

/-! ## Indicator engine: `app/agents/indicator_agent.py`

The price input is the `Close` column, oldest first, modelled as
`List ℚ`.  Intermediate pandas series may contain NaN cells, modelled as
`none` in `List (Option ℚ)`; a NaN returned to the caller is `none`. -/

/-- `df["Close"].diff()`: a leading NaN, then consecutive differences. -/
def seriesDiff (xs : List ℚ) : List (Option ℚ) :=
  match xs with
  | [] => []
  | _ :: rest => none :: List.zipWith (fun b a => some (b - a)) rest xs

/-- `delta.where(delta > 0, 0)`: keep positive deltas; every other cell
(including the leading NaN, whose comparison is False) becomes 0. -/
def gainsOf (ds : List (Option ℚ)) : List ℚ :=
  ds.map fun d => match d with | some v => if v > 0 then v else 0 | none => 0

/-- `-delta.where(delta < 0, 0)`: keep negative deltas, zero elsewhere,
then negate. -/
def lossesOf (ds : List (Option ℚ)) : List ℚ :=
  ds.map fun d => match d with | some v => if v < 0 then -v else 0 | none => 0

/-- One cell of `xs.rolling(window=p).mean()`: `seen` is the reversed
prefix up to and including the current cell; NaN until `p` cells exist. -/
def rollCell (p : ℕ) (seen : List ℚ) : Option ℚ :=
  if seen.length < p then none else some ((seen.take p).sum / p)

def rollingMeanAux (p : ℕ) (seen : List ℚ) : List ℚ → List (Option ℚ)
  | [] => []
  | x :: rest => rollCell p (x :: seen) :: rollingMeanAux p (x :: seen) rest

/-- `xs.rolling(window=p).mean()` (`min_periods` defaults to the window,
so the first `p-1` cells are NaN). -/
def rollingMean (p : ℕ) (xs : List ℚ) : List (Option ℚ) :=
  rollingMeanAux p [] xs

/-- `.replace(0, np.nan)` on a float series. -/
def replaceZeroNaN (xs : List (Option ℚ)) : List (Option ℚ) :=
  xs.map fun x => match x with | some v => if v = 0 then none else some v | none => none

/-- Elementwise division of two aligned series cells; NaN propagates. -/
def nanDiv (a b : Option ℚ) : Option ℚ :=
  match a, b with
  | some x, some y => some (x / y)
  | _, _ => none

/-- Shallow embedding of `compute_rsi(df, period=14)` from
`app/agents/indicator_agent.py`.  The returned `none` models the Python
function returning `float("nan")` (possible because
`avg_losses.replace(0, np.nan)` can leave the final cell NaN while an
earlier cell is numeric). -/
def compute_rsi (closes : List ℚ) (period : ℕ := 14) : Option ℚ :=
  if closes.length < period then some 50
  else
    let delta := seriesDiff closes
    let gains := gainsOf delta
    let losses := lossesOf delta
    let avg_gains := rollingMean period gains
    let avg_losses := replaceZeroNaN (rollingMean period losses)
    let rs := List.zipWith nanDiv avg_gains avg_losses
    let rsi := rs.map (Option.map fun r => 100 - 100 / (1 + r))
    if rsi.all (fun x => x.isNone) then some 50
    else rsi.getLast?.join

/-- The RSI computation as the spec describes it (Wilder's smoothing):
seed `avg_gain`/`avg_loss` with the simple mean of the first `period`
gains/losses, then `avg = (avg*(period-1) + new)/period` per later step;
100.0 exactly when `avg_loss` is zero; 50.0 below `period+1` points.
Stated from the spec's words, to compare with what the code computes. -/
def wilderRsi (closes : List ℚ) (period : ℕ := 14) : ℚ :=
  if closes.length < period + 1 then 50
  else
    let deltas := List.zipWith (fun b a => b - a) closes.tail closes
    let gains := deltas.map fun d => max d 0
    let losses := deltas.map fun d => max (-d) 0
    let avgG := (gains.drop period).foldl
      (fun avg g => (avg * ((period : ℚ) - 1) + g) / period) ((gains.take period).sum / period)
    let avgL := (losses.drop period).foldl
      (fun avg l => (avg * ((period : ℚ) - 1) + l) / period) ((losses.take period).sum / period)
    if avgL = 0 then 100
    else 100 - 100 / (1 + avgG / avgL)

/-- Cells after the first of `xs.ewm(span=…, adjust=False).mean()`:
`y[t] = (1-alpha)*y[t-1] + alpha*x[t]`, `prev` being the previous cell. -/
def ewmAux (alpha : ℚ) (prev : ℚ) : List ℚ → List ℚ
  | [] => []
  | x :: rest =>
    let y := (1 - alpha) * prev + alpha * x
    y :: ewmAux alpha y rest

/-- `xs.ewm(span=…, adjust=False).mean()` with `alpha` already computed:
the first cell is seeded with the first observation. -/
def ewm (alpha : ℚ) : List ℚ → List ℚ
  | [] => []
  | x :: rest => x :: ewmAux alpha x rest

/-- Shallow embedding of `compute_macd(df, fast=12, slow=26, signal=9)`
from `app/agents/indicator_agent.py`.  `signal` is accepted and unused,
as in the source.  The final `float(macd.iloc[-1]) if not
macd.isna().all() else None` is `macd.getLast?`: the EWM of a NaN-free
series has no NaN cells, so the series is all-NaN only when empty. -/
def compute_macd (closes : List ℚ) (fast : ℕ := 12) (slow : ℕ := 26)
    (_signal : ℕ := 9) : Option ℚ :=
  if closes.length < slow then none
  else
    let ema_fast := ewm (2 / ((fast : ℚ) + 1)) closes
    let ema_slow := ewm (2 / ((slow : ℚ) + 1)) closes
    let macd := List.zipWith (fun a b => a - b) ema_fast ema_slow
    macd.getLast?

lemma rollingMeanAux_length (p : ℕ) (seen xs : List ℚ) :
    (rollingMeanAux p seen xs).length = xs.length := by
  induction xs generalizing seen with
  | nil => rfl
  | cons x rest ih => simp [rollingMeanAux, ih]

lemma rollingMeanAux_getLast? (p : ℕ) :
    ∀ (xs : List ℚ) (seen : List ℚ), xs ≠ [] →
      (rollingMeanAux p seen xs).getLast? = some (rollCell p (xs.reverse ++ seen))
  | [], _, h => absurd rfl h
  | [x], seen, _ => by simp [rollingMeanAux]
  | x :: y :: t, seen, _ => by
    rw [rollingMeanAux, rollingMeanAux, List.getLast?_cons_cons, ← rollingMeanAux,
      rollingMeanAux_getLast? p (y :: t) (x :: seen) (by simp)]
    simp

lemma zipWith_getLast?_of {α β γ : Type} (f : α → β → γ) :
    ∀ (as : List α) (bs : List β) (a : α) (b : β),
      as.length = bs.length → as.getLast? = some a → bs.getLast? = some b →
      (List.zipWith f as bs).getLast? = some (f a b)
  | [], _, _, _, _, ha, _ => by simp at ha
  | _ :: _, [], _, _, hl, _, _ => by simp at hl
  | [a1], b1 :: bs', a, b, hl, ha, hb => by
    cases bs' with
    | nil =>
      simp only [List.getLast?_singleton, Option.some.injEq] at ha hb
      simp [ha, hb]
    | cons b2 bs'' => simp at hl
  | a1 :: a2 :: as'', b1 :: bs', a, b, hl, ha, hb => by
    cases bs' with
    | nil => simp at hl
    | cons b2 bs'' =>
      rw [List.getLast?_cons_cons] at ha
      rw [List.getLast?_cons_cons] at hb
      rw [List.zipWith_cons_cons, List.zipWith_cons_cons, List.getLast?_cons_cons,
        ← List.zipWith_cons_cons]
      exact zipWith_getLast?_of f (a2 :: as'') (b2 :: bs'') a b (by simpa using hl) ha hb

lemma ewmAux_length (alpha prev : ℚ) (xs : List ℚ) :
    (ewmAux alpha prev xs).length = xs.length := by
  induction xs generalizing prev with
  | nil => rfl
  | cons x rest ih => simp [ewmAux, ih]

lemma ewm_length (alpha : ℚ) (xs : List ℚ) : (ewm alpha xs).length = xs.length := by
  cases xs with
  | nil => rfl
  | cons x rest => simp [ewm, ewmAux_length]

lemma getLast?_cons_of_ne_nil {α : Type} (a : α) (l : List α) (h : l ≠ []) :
    (a :: l).getLast? = l.getLast? := by
  cases l with
  | nil => exact absurd rfl h
  | cons b t => exact List.getLast?_cons_cons

lemma ewmAux_ne_nil (alpha prev : ℚ) (x : ℚ) (t : List ℚ) :
    ewmAux alpha prev (x :: t) ≠ [] := by
  simp [ewmAux]

lemma ewmAux_getLast? (alpha : ℚ) :
    ∀ (xs : List ℚ) (prev : ℚ), xs ≠ [] →
      (ewmAux alpha prev xs).getLast?
        = some (xs.foldl (fun a y => (1 - alpha) * a + alpha * y) prev)
  | [], _, h => absurd rfl h
  | [x], prev, _ => by simp [ewmAux]
  | x :: y :: t, prev, _ => by
    rw [show ewmAux alpha prev (x :: y :: t)
          = ((1 - alpha) * prev + alpha * x)
            :: ewmAux alpha ((1 - alpha) * prev + alpha * x) (y :: t) from rfl]
    rw [getLast?_cons_of_ne_nil _ _ (ewmAux_ne_nil _ _ _ _)]
    rw [ewmAux_getLast? alpha (y :: t) ((1 - alpha) * prev + alpha * x) (by simp)]
    simp [List.foldl_cons]

lemma ewm_getLast? (alpha : ℚ) (x : ℚ) (rest : List ℚ) :
    (ewm alpha (x :: rest)).getLast?
      = some (rest.foldl (fun a y => (1 - alpha) * a + alpha * y) x) := by
  cases rest with
  | nil => simp [ewm, ewmAux]
  | cons y t =>
    rw [show ewm alpha (x :: y :: t) = x :: ewmAux alpha x (y :: t) from rfl]
    rw [getLast?_cons_of_ne_nil _ _ (ewmAux_ne_nil _ _ _ _)]
    exact ewmAux_getLast? alpha (y :: t) x (by simp)

lemma seriesDiff_length (xs : List ℚ) : (seriesDiff xs).length = xs.length := by
  cases xs with
  | nil => rfl
  | cons x rest => simp [seriesDiff]

/-- C3: on a series whose final smoothing window has zero losses the
code does not return 100.0.  With closes 2,1,2,3,…,15 (period 14) the
final window's average loss is zero while an earlier window's is not, so
the final RSI cell is NaN and the function returns NaN (`none`), which
is not in [0,100]; with strictly increasing closes 1..15 every cell is
NaN and the 50.0 fallback is returned instead of 100.0. -/
theorem compute_rsi_zero_loss_nan :
    compute_rsi [2, 1, 2, 3, 4, 5, 6, 7, 8, 9, 10, 11, 12, 13, 14, 15] 14 = none
    ∧ compute_rsi [1, 2, 3, 4, 5, 6, 7, 8, 9, 10, 11, 12, 13, 14, 15] 14 = some 50 := by
  constructor <;>
    norm_num [compute_rsi, seriesDiff, gainsOf, lossesOf, rollingMean, rollingMeanAux,
      rollCell, replaceZeroNaN, nanDiv, List.zipWith]

/-- C4 (counterexample): a list of exactly `period` elements is not sent
to the 50.0 fallback: fourteen strictly decreasing closes (fewer than
period+1 = 15 of them) produce RSI 0.0, not 50.0. -/
theorem compute_rsi_exact_period_not_neutral :
    ([(14 : ℚ), 13, 12, 11, 10, 9, 8, 7, 6, 5, 4, 3, 2, 1] : List ℚ).length < 14 + 1
    ∧ compute_rsi [14, 13, 12, 11, 10, 9, 8, 7, 6, 5, 4, 3, 2, 1] 14 = some 0 := by
  refine ⟨by norm_num, ?_⟩
  norm_num [compute_rsi, seriesDiff, gainsOf, lossesOf, rollingMean, rollingMeanAux,
    rollCell, replaceZeroNaN, nanDiv, List.zipWith]

/-- C4 (amended): the insufficient-history fallback fires one element
earlier than the claim says: `compute_rsi` returns exactly 50.0
(and never fails) when the list has fewer than `period` elements. -/
theorem compute_rsi_insufficient_history (closes : List ℚ) (period : ℕ)
    (h : closes.length < period) : compute_rsi closes period = some 50 := by
  simp [compute_rsi, h]

theorem compute_rsi_insufficient_history_witness :
    ([(1 : ℚ), 2, 3] : List ℚ).length < 14 ∧ compute_rsi [1, 2, 3] 14 = some 50 :=
  ⟨by norm_num, compute_rsi_insufficient_history [1, 2, 3] 14 (by norm_num)⟩

/-- C5 (counterexample): `compute_rsi` does not implement Wilder's
smoothed RSI: on closes 10,11,10,12,11,13 with period 3 the code
produces 80 while the Wilder recurrence described by the spec gives
75. -/
theorem compute_rsi_differs_from_wilder :
    compute_rsi [10, 11, 10, 12, 11, 13] 3 = some 80
    ∧ wilderRsi [10, 11, 10, 12, 11, 13] 3 = 75 := by
  constructor
  · norm_num [compute_rsi, seriesDiff, gainsOf, lossesOf, rollingMean, rollingMeanAux,
      rollCell, replaceZeroNaN, nanDiv, List.zipWith]
  · norm_num [wilderRsi, List.zipWith]

/-- C5 (amended): on sufficient history (`period ≤ len`, `period ≥ 1`)
`compute_rsi` does not Wilder-smooth: per-step gain = max(Δ,0) and
loss = max(-Δ,0) with the undefined first delta contributing 0,
`avg_gain`/`avg_loss` are the simple means of the last `period`
gains/losses (a plain rolling window), and
`rsi = 100 - 100/(1 + avg_gain/avg_loss)` whenever the window's average
loss is nonzero; a zero average loss yields NaN or the all-NaN 50.0
fallback instead. -/
theorem compute_rsi_rolling_mean_form (closes : List ℚ) (period : ℕ)
    (h1 : 1 ≤ period) (h2 : period ≤ closes.length) :
    (((lossesOf (seriesDiff closes)).reverse.take period).sum ≠ 0 →
      compute_rsi closes period = some (100 - 100 /
        (1 + (((gainsOf (seriesDiff closes)).reverse.take period).sum / period)
           / (((lossesOf (seriesDiff closes)).reverse.take period).sum / period))))
    ∧ (((lossesOf (seriesDiff closes)).reverse.take period).sum = 0 →
      compute_rsi closes period = some 50 ∨ compute_rsi closes period = none) := by
  have hplen : ¬ closes.length < period := by omega
  have hsl := seriesDiff_length closes
  have hg : (gainsOf (seriesDiff closes)).length = closes.length := by simp [gainsOf, hsl]
  have hl : (lossesOf (seriesDiff closes)).length = closes.length := by simp [lossesOf, hsl]
  have hgne : gainsOf (seriesDiff closes) ≠ [] := by
    intro hc; rw [hc] at hg; simp at hg; omega
  have hlne : lossesOf (seriesDiff closes) ≠ [] := by
    intro hc; rw [hc] at hl; simp at hl; omega
  have hAG : (rollingMean period (gainsOf (seriesDiff closes))).getLast?
      = some (rollCell period (gainsOf (seriesDiff closes)).reverse) := by
    rw [rollingMean, rollingMeanAux_getLast? period _ [] hgne, List.append_nil]
  have hAL : (rollingMean period (lossesOf (seriesDiff closes))).getLast?
      = some (rollCell period (lossesOf (seriesDiff closes)).reverse) := by
    rw [rollingMean, rollingMeanAux_getLast? period _ [] hlne, List.append_nil]
  have hRCg : rollCell period (gainsOf (seriesDiff closes)).reverse
      = some (((gainsOf (seriesDiff closes)).reverse.take period).sum / period) := by
    rw [rollCell, if_neg (by simp only [List.length_reverse]; omega)]
  have hRCl : rollCell period (lossesOf (seriesDiff closes)).reverse
      = some (((lossesOf (seriesDiff closes)).reverse.take period).sum / period) := by
    rw [rollCell, if_neg (by simp only [List.length_reverse]; omega)]
  have hAGv : (rollingMean period (gainsOf (seriesDiff closes))).getLast?
      = some (some (((gainsOf (seriesDiff closes)).reverse.take period).sum / period)) := by
    rw [hAG, hRCg]
  have hlen2 : (rollingMean period (gainsOf (seriesDiff closes))).length
      = (replaceZeroNaN (rollingMean period (lossesOf (seriesDiff closes)))).length := by
    simp [rollingMean, rollingMeanAux_length, replaceZeroNaN, hg, hl]
  have hpne : ((period : ℚ)) ≠ 0 := Nat.cast_ne_zero.mpr (by omega)
  constructor
  · intro hLne
    have hdivne : (((lossesOf (seriesDiff closes)).reverse.take period).sum / period : ℚ) ≠ 0 :=
      div_ne_zero hLne hpne
    have hALr : (replaceZeroNaN (rollingMean period (lossesOf (seriesDiff closes)))).getLast?
        = some (some (((lossesOf (seriesDiff closes)).reverse.take period).sum / period)) := by
      simp only [replaceZeroNaN, List.getLast?_map, hAL, hRCl, Option.map_some]
      simp [hdivne]
    have hRS := zipWith_getLast?_of nanDiv
      (rollingMean period (gainsOf (seriesDiff closes)))
      (replaceZeroNaN (rollingMean period (lossesOf (seriesDiff closes))))
      _ _ hlen2 hAGv hALr
    have hRSI : ((List.zipWith nanDiv (rollingMean period (gainsOf (seriesDiff closes)))
        (replaceZeroNaN (rollingMean period (lossesOf (seriesDiff closes))))).map
          (Option.map fun r => 100 - 100 / (1 + r))).getLast?
        = some (some (100 - 100 /
            (1 + (((gainsOf (seriesDiff closes)).reverse.take period).sum / period)
               / (((lossesOf (seriesDiff closes)).reverse.take period).sum / period)))) := by
      rw [List.getLast?_map, hRS]
      rfl
    have hmem : (some (100 - 100 /
          (1 + (((gainsOf (seriesDiff closes)).reverse.take period).sum / period)
             / (((lossesOf (seriesDiff closes)).reverse.take period).sum / period))) : Option ℚ)
        ∈ (List.zipWith nanDiv (rollingMean period (gainsOf (seriesDiff closes)))
            (replaceZeroNaN (rollingMean period (lossesOf (seriesDiff closes))))).map
              (Option.map fun r => 100 - 100 / (1 + r)) := by
      obtain ⟨hne', heq⟩ := List.mem_getLast?_eq_getLast (Option.mem_iff.mpr hRSI)
      rw [heq]
      exact List.getLast_mem hne'
    have hall : ((List.zipWith nanDiv (rollingMean period (gainsOf (seriesDiff closes)))
        (replaceZeroNaN (rollingMean period (lossesOf (seriesDiff closes))))).map
          (Option.map fun r => 100 - 100 / (1 + r))).all (fun x => x.isNone) = false := by
      rw [List.all_eq_false]
      exact ⟨_, hmem, by simp⟩
    simp only [compute_rsi]
    rw [if_neg hplen, hall]
    rw [if_neg Bool.false_ne_true, hRSI]
    rfl
  · intro hL0
    have hALr : (replaceZeroNaN (rollingMean period (lossesOf (seriesDiff closes)))).getLast?
        = some none := by
      simp only [replaceZeroNaN, List.getLast?_map, hAL, hRCl, Option.map_some]
      simp [hL0]
    have hRS := zipWith_getLast?_of nanDiv
      (rollingMean period (gainsOf (seriesDiff closes)))
      (replaceZeroNaN (rollingMean period (lossesOf (seriesDiff closes))))
      _ _ hlen2 hAGv hALr
    have hRSI : ((List.zipWith nanDiv (rollingMean period (gainsOf (seriesDiff closes)))
        (replaceZeroNaN (rollingMean period (lossesOf (seriesDiff closes))))).map
          (Option.map fun r => 100 - 100 / (1 + r))).getLast? = some none := by
      rw [List.getLast?_map, hRS]
      rfl
    simp only [compute_rsi]
    rw [if_neg hplen]
    by_cases hb : ((List.zipWith nanDiv (rollingMean period (gainsOf (seriesDiff closes)))
        (replaceZeroNaN (rollingMean period (lossesOf (seriesDiff closes))))).map
          (Option.map fun r => 100 - 100 / (1 + r))).all (fun x => x.isNone) = true
    · left
      rw [if_pos hb]
    · right
      rw [if_neg hb, hRSI]
      rfl

theorem compute_rsi_rolling_mean_form_witness :
    (1 ≤ 3 ∧ 3 ≤ ([10, 11, 10, 12, 11, 13] : List ℚ).length
      ∧ ((lossesOf (seriesDiff [10, 11, 10, 12, 11, 13])).reverse.take 3).sum ≠ 0)
    ∧ compute_rsi [10, 11, 10, 12, 11, 13] 3
      = some (100 - 100 /
          (1 + (((gainsOf (seriesDiff [10, 11, 10, 12, 11, 13])).reverse.take 3).sum / 3)
             / (((lossesOf (seriesDiff [10, 11, 10, 12, 11, 13])).reverse.take 3).sum / 3))) :=
  ⟨⟨by norm_num, by norm_num,
      by norm_num [lossesOf, seriesDiff, List.zipWith]⟩,
    (compute_rsi_rolling_mean_form [10, 11, 10, 12, 11, 13] 3 (by norm_num) (by norm_num)).1
      (by norm_num [lossesOf, seriesDiff, List.zipWith])⟩

/-- C9: `compute_macd` returns the absent marker iff the list is shorter
than `slow`; otherwise it returns the latest raw MACD-line value, the
fast EMA minus the slow EMA with `alpha = 2/(span+1)` and
`ema[0] = series[0]`, and no signal-line smoothing. -/
theorem compute_macd_absent_iff_ema_diff (closes : List ℚ) (fast slow : ℕ)
    (hs : 1 ≤ slow) :
    (compute_macd closes fast slow = none ↔ closes.length < slow)
    ∧ (∀ (x : ℚ) (rest : List ℚ), closes = x :: rest → slow ≤ closes.length →
        compute_macd closes fast slow
          = some (rest.foldl (fun a y => a + (2 / ((fast : ℚ) + 1)) * (y - a)) x
              - rest.foldl (fun a y => a + (2 / ((slow : ℚ) + 1)) * (y - a)) x)) := by
  have hfun : ∀ α : ℚ, (fun a y : ℚ => (1 - α) * a + α * y) = (fun a y : ℚ => a + α * (y - a)) := by
    intro α; funext a y; ring
  have hmain : ∀ (x : ℚ) (rest : List ℚ), closes = x :: rest → slow ≤ closes.length →
      compute_macd closes fast slow
        = some (rest.foldl (fun a y => a + (2 / ((fast : ℚ) + 1)) * (y - a)) x
            - rest.foldl (fun a y => a + (2 / ((slow : ℚ) + 1)) * (y - a)) x) := by
    rintro x rest rfl hlen
    simp only [compute_macd]
    rw [if_neg (by omega)]
    have hlen2 : (ewm (2 / ((fast : ℚ) + 1)) (x :: rest)).length
        = (ewm (2 / ((slow : ℚ) + 1)) (x :: rest)).length := by
      simp [ewm_length]
    rw [zipWith_getLast?_of (fun a b => a - b) _ _ _ _ hlen2
      (ewm_getLast? (2 / ((fast : ℚ) + 1)) x rest)
      (ewm_getLast? (2 / ((slow : ℚ) + 1)) x rest)]
    rw [hfun (2 / ((fast : ℚ) + 1)), hfun (2 / ((slow : ℚ) + 1))]
  refine ⟨⟨?_, fun hlt => by simp [compute_macd, hlt]⟩, hmain⟩
  intro hnone
  by_contra hge
  push_neg at hge
  obtain ⟨x, rest, rfl⟩ : ∃ x rest, closes = x :: rest := by
    cases closes with
    | nil => simp at hge; omega
    | cons a t => exact ⟨a, t, rfl⟩
  rw [hmain x rest rfl hge] at hnone
  simp at hnone

theorem compute_macd_absent_iff_ema_diff_witness :
    (1 ≤ 3 ∧ ¬ (([1, 2, 3] : List ℚ).length < 3))
    ∧ compute_macd [1, 2, 3] 2 3 = some (11/36) := by
  have h := compute_macd_absent_iff_ema_diff [1, 2, 3] 2 3 (by norm_num)
  refine ⟨⟨by norm_num, by norm_num⟩, ?_⟩
  rw [h.2 1 [2, 3] rfl (by norm_num)]
  norm_num [List.foldl]

/-! ## Sentiment aggregator: `app/agents/sentiment_agent.py`

`SentimentAgent.analyze_sentiment` scores each text with
`_analyze_single_text` (an LLM call with a keyword fallback) — an
external effect, abstracted as a scoring function — and aggregates the
scores.  The `** 0.5` of `_calculate_confidence` is the real square
root, so the confidence lives in `ℝ`. -/

/-- Python's `round(x, 2)` on a real value (banker's rounding), for
`round(confidence, 2)` in `analyze_sentiment`. -/
noncomputable def rround2 (x : ℝ) : ℝ :=
  let y : ℝ := 100 * x
  let f : ℤ := ⌊y⌋
  let r : ℝ := y - f
  let n : ℤ :=
    if r < 1/2 then f
    else if r > 1/2 then f + 1
    else if f % 2 = 0 then f else f + 1
  (n : ℝ) / 100

/-- Python's `round(x, 3)`, for `round(avg_score, 3)` and
`round(s, 3)` on the individual scores. -/
def pyRound3 (q : ℚ) : ℚ :=
  let x : ℚ := 1000 * q
  let f : ℤ := ⌊x⌋
  let r : ℚ := x - f
  let n : ℤ :=
    if r < 1/2 then f
    else if r > 1/2 then f + 1
    else if f % 2 = 0 then f else f + 1
  (n : ℚ) / 1000

/-- `SentimentAgent._determine_overall_sentiment`: thresholds ±0.1. -/
def determineOverall (avg : ℚ) : String :=
  if avg > 1/10 then "POSITIVE"
  else if avg < -(1/10) then "NEGATIVE"
  else "NEUTRAL"

/-- `SentimentAgent._calculate_confidence`: 0.0 for no samples, 0.7 for
one, else `1 - min(std_dev, 1)` with the population standard deviation
`(sum (s-avg)^2 / n) ** 0.5`. -/
noncomputable def calcConfidence (scores : List ℚ) : ℝ :=
  if scores.length = 0 then 0
  else if scores.length = 1 then 7/10
  else
    let avg : ℚ := scores.sum / scores.length
    let variance : ℚ := (scores.map (fun s => (s - avg)^2)).sum / scores.length
    1 - min (Real.sqrt (variance : ℝ)) 1

/-- The dict returned by `SentimentAgent.analyze_sentiment`.  Keys that
one branch omits are `Option` fields (`none` = key absent from the
dict); the `summary` f-string is modelled by the values interpolated
into it. -/
structure SentimentAggregate where
  texts_analyzed : ℕ
  overall_sentiment : String
  overall_score : ℚ
  error : Option String
  individual_scores : Option (List ℚ)
  interpretations : Option (List String)
  confidence : Option ℝ
  summary : Option (ℚ × ℕ × String)

/-- Shallow embedding of `SentimentAgent.analyze_sentiment(texts)`,
with the per-text scorer injected as `score_of`. -/
noncomputable def analyze_sentiment (score_of : String → ℚ × String)
    (texts : List String) : SentimentAggregate :=
  if texts = [] then
    { texts_analyzed := 0
      overall_sentiment := "NEUTRAL"
      overall_score := 0
      error := some "No texts provided for sentiment analysis"
      individual_scores := none
      interpretations := none
      confidence := none
      summary := none }
  else
    let scores := texts.map fun t => (score_of t).1
    let interps := texts.map fun t => (score_of t).2
    let avg : ℚ := scores.sum / scores.length
    let overall := determineOverall avg
    let conf := calcConfidence scores
    { texts_analyzed := texts.length
      overall_sentiment := overall
      overall_score := pyRound3 avg
      error := none
      individual_scores := some (scores.map pyRound3)
      interpretations := some interps
      confidence := some (rround2 conf)
      summary := some (avg, texts.length, overall) }

/-- Population standard deviation, stated independently of the code's
loop: square root of (mean of squares minus squared mean). -/
noncomputable def popStdDev (scores : List ℚ) : ℝ :=
  Real.sqrt ((((scores.map fun s : ℚ => ((s : ℝ))^2).sum) / scores.length)
    - (((scores.map fun s : ℚ => (s : ℝ)).sum) / scores.length)^2)

lemma cast_list_sum (l : List ℚ) :
    ((l.sum : ℚ) : ℝ) = (l.map fun q : ℚ => (q : ℝ)).sum := by
  induction l with
  | nil => simp
  | cons x t ih => push_cast [ih]; simp

lemma sum_sq_sub (l : List ℝ) (μ : ℝ) :
    (l.map (fun s => (s - μ)^2)).sum
      = (l.map (fun s => s^2)).sum - 2*μ*l.sum + l.length*μ^2 := by
  induction l with
  | nil => simp
  | cons x t ih =>
    simp only [List.map_cons, List.sum_cons, List.length_cons, ih]
    push_cast
    ring

lemma calcConfidence_eq_popStdDev (scores : List ℚ) (h : 2 ≤ scores.length) :
    calcConfidence scores = 1 - min (popStdDev scores) 1 := by
  have hn0 : scores.length ≠ 0 := by omega
  have hn1 : scores.length ≠ 1 := by omega
  have hnR : ((scores.length : ℝ)) ≠ 0 := Nat.cast_ne_zero.mpr hn0
  simp only [calcConfidence, if_neg hn0, if_neg hn1, popStdDev]
  -- the cast of the code's rational variance equals the spec's real one
  have h1 : ((((scores.map fun s => (s - scores.sum / scores.length)^2).sum : ℚ)) : ℝ)
      = (scores.map fun s : ℚ =>
          ((s : ℝ) - (scores.map fun q : ℚ => (q : ℝ)).sum / (scores.length : ℝ))^2).sum := by
    rw [cast_list_sum, List.map_map]
    congr 1
    apply List.map_congr_left
    intro s _
    simp only [Function.comp_apply]
    push_cast
    rfl
  have h2 := sum_sq_sub (scores.map fun q : ℚ => (q : ℝ))
    ((scores.map fun q : ℚ => (q : ℝ)).sum / (scores.length : ℝ))
  simp only [List.map_map, Function.comp_def, List.length_map] at h2
  have key : ((((scores.map fun s => (s - scores.sum / scores.length)^2).sum
        / scores.length : ℚ)) : ℝ)
      = (((scores.map fun s : ℚ => ((s : ℝ))^2).sum) / scores.length)
        - (((scores.map fun s : ℚ => (s : ℝ)).sum) / scores.length)^2 := by
    rw [Rat.cast_div, h1, h2]
    push_cast
    field_simp
    ring
  rw [key]

/-- C8: the per-aggregate confidence is 0.7 for exactly one sample and
`1 - min(population_stddev, 1)` for two or more, hence always in [0,1],
with lower spread (higher agreement) giving higher confidence; on a
non-empty text list the aggregate's `confidence` entry is that value
rounded to 2 decimals. -/
theorem calcConfidence_agreement :
    (∀ scores : List ℚ, scores.length = 1 → calcConfidence scores = 7/10)
    ∧ (∀ scores : List ℚ, 2 ≤ scores.length →
        calcConfidence scores = 1 - min (popStdDev scores) 1)
    ∧ (∀ scores : List ℚ, scores ≠ [] →
        0 ≤ calcConfidence scores ∧ calcConfidence scores ≤ 1)
    ∧ (∀ xs ys : List ℚ, 2 ≤ xs.length → 2 ≤ ys.length →
        popStdDev xs ≤ popStdDev ys → calcConfidence ys ≤ calcConfidence xs)
    ∧ (∀ (score_of : String → ℚ × String) (texts : List String), texts ≠ [] →
        (analyze_sentiment score_of texts).confidence
          = some (rround2 (calcConfidence (texts.map fun t => (score_of t).1)))) := by
  have hone : ∀ scores : List ℚ, scores.length = 1 → calcConfidence scores = 7/10 := by
    intro scores h
    simp [calcConfidence, h]
  refine ⟨hone, fun scores h => calcConfidence_eq_popStdDev scores h, ?_, ?_, ?_⟩
  · intro scores hne
    have hpos : 1 ≤ scores.length := List.length_pos.mpr hne
    rcases Nat.lt_or_ge scores.length 2 with hlt | hge
    · have h1 : scores.length = 1 := by omega
      rw [hone scores h1]
      norm_num
    · rw [calcConfidence_eq_popStdDev scores hge]
      constructor
      · have : min (popStdDev scores) 1 ≤ 1 := min_le_right _ _
        linarith
      · have : (0 : ℝ) ≤ min (popStdDev scores) 1 :=
          le_min (Real.sqrt_nonneg _) zero_le_one
        linarith
  · intro xs ys hx hy hle
    rw [calcConfidence_eq_popStdDev xs hx, calcConfidence_eq_popStdDev ys hy]
    have : min (popStdDev xs) 1 ≤ min (popStdDev ys) 1 := min_le_min hle le_rfl
    linarith
  · intro score_of texts hne
    simp [analyze_sentiment, hne]

theorem calcConfidence_agreement_witness :
    (([(0 : ℚ), 1] : List ℚ).length = 2 ∧ 2 ≤ ([(0 : ℚ), 1] : List ℚ).length
      ∧ ([(1 : ℚ)/2] : List ℚ).length = 1)
    ∧ calcConfidence [(1 : ℚ)/2] = 7/10
    ∧ calcConfidence [(0 : ℚ), 1] = 1/2 := by
  have h := calcConfidence_agreement
  refine ⟨⟨by norm_num, by norm_num, by norm_num⟩, h.1 [(1 : ℚ)/2] (by norm_num), ?_⟩
  rw [h.2.1 [(0 : ℚ), 1] (by norm_num)]
  have hp : popStdDev [(0 : ℚ), 1] = 1/2 := by
    have harg : (((([(0 : ℚ), 1] : List ℚ).map fun s : ℚ => ((s : ℝ))^2).sum)
          / (([(0 : ℚ), 1] : List ℚ).length))
        - (((([(0 : ℚ), 1] : List ℚ).map fun s : ℚ => (s : ℝ)).sum)
          / (([(0 : ℚ), 1] : List ℚ).length))^2 = ((1 : ℝ)/2)^2 := by
      norm_num
    rw [popStdDev, harg, Real.sqrt_sq (by norm_num)]
  rw [hp]
  norm_num

/-- C6: on the empty text list `analyze_sentiment` returns, without
failing, a dict with 0 texts analyzed, NEUTRAL sentiment, overall score
0 and the error message — but no `confidence` key at all, even though
the confidence helper maps an empty score list to 0.0. -/
theorem analyze_sentiment_empty_eval :
    (∀ score_of : String → ℚ × String,
      analyze_sentiment score_of [] =
        { texts_analyzed := 0
          overall_sentiment := "NEUTRAL"
          overall_score := 0
          error := some "No texts provided for sentiment analysis"
          individual_scores := none
          interpretations := none
          confidence := none
          summary := none })
    ∧ calcConfidence [] = 0 :=
  ⟨fun _ => rfl, by simp [calcConfidence]⟩

end StockAgent
